import Mathlib

/-!
Verification of the gambiarra-arena real-time session/round protocol engine.

The definitions below are a shallow embedding of the TypeScript sources:
  - src/server/src/ws/hub.ts        (WebSocketHub: connection registry, token
                                     sequencer, broadcast, metrics completion)
  - src/server/src/core/rounds.ts   (RoundManager: round lifecycle)
  - the HTTP routes file            (Zod schemas, POST /votes)

JavaScript Maps are embedded as association lists with in-place update
(mset replaces the binding of an existing key, otherwise appends, mirroring
Map.prototype.set and its insertion-order semantics).  Asynchronous Prisma
calls are embedded as pure state transformers over a DB record; Date.now()
and generated ids are passed as explicit parameters.  A WebSocket is a pair
of an id and a flag saying whether its send method throws.
-/

namespace Gambiarra

/-- Lookup in an association list, mirroring JavaScript Map.prototype.get. -/
def mget {κ α : Type} [DecidableEq κ] (k : κ) : List (κ × α) → Option α
  | [] => none
  | p :: rest => if p.1 = k then some p.2 else mget k rest

/-- Update/insert in an association list, mirroring JavaScript
Map.prototype.set: replaces the binding of an existing key in place,
otherwise appends the new binding at the end. -/
def mset {κ α : Type} [DecidableEq κ] (k : κ) (v : α) : List (κ × α) → List (κ × α)
  | [] => [(k, v)]
  | p :: rest => if p.1 = k then (k, v) :: rest else p :: mset k v rest

/-- mirror of the `if (!map.has(k)) map.set(k, d)` idiom of hub.ts. -/
def ensureKey {κ α : Type} [DecidableEq κ] (k : κ) (d : α) (m : List (κ × α)) :
    List (κ × α) :=
  if (mget k m).isSome then m else mset k d m

/-- The keys of an association list, in order. -/
def keysOf {κ α : Type} (m : List (κ × α)) : List κ := m.map Prod.fst

/-! ## Data model (Prisma schema as used by the code under verification) -/

inductive SessionStatus
  | active
  | ended
deriving DecidableEq

structure Session where
  id : String
  /-- bcrypt hash of the PIN; `bcrypt.compare(pin, pinHash)` is embedded as
  string equality of the submitted PIN with the hashed one (hashing is a
  bijection onto stored hashes for the purposes of the protocol logic). -/
  pinHash : String
  status : SessionStatus
  createdAt : Nat
deriving DecidableEq

structure Participant where
  id : String
  sessionId : String
  nickname : String
  runner : String
  model : String
  lastSeen : Nat
  createdAt : Nat
deriving DecidableEq

structure Round where
  id : String
  sessionId : String
  index : Nat
  prompt : String
  maxTokens : Nat
  temperature : Rat
  deadlineMs : Nat
  seed : Option Nat
  svgMode : Bool
  startedAt : Option Nat
  endedAt : Option Nat
deriving DecidableEq

structure Metrics where
  roundId : String
  participantId : String
  tokens : Rat
  latencyFirstTokenMs : Option Rat
  durationMs : Rat
  tpsAvg : Option Rat
  modelInfo : Option String
deriving DecidableEq

structure Vote where
  roundId : String
  voterId : String
  participantId : String
  score : Rat
deriving DecidableEq

structure DB where
  sessions : List Session
  participants : List Participant
  rounds : List Round
  metrics : List Metrics
  votes : List Vote
deriving DecidableEq

/-! ## Protocol messages (message shapes as used by hub.ts) -/

structure RegisterMessage where
  participant_id : String
  nickname : String
  pin : String
  runner : String
  model : String
deriving DecidableEq

structure TokenMessage where
  participant_id : String
  round : Nat
  seq : Nat
  content : String
deriving DecidableEq

structure CompleteMessage where
  participant_id : String
  round : Nat
  tokens : Rat
  latency_ms_first_token : Option Rat
  duration_ms : Rat
  model_info : Option String
deriving DecidableEq

inductive ClientMessage
  | register (m : RegisterMessage)
  | token (m : TokenMessage)
  | complete (m : CompleteMessage)
  | error (round : Nat) (participant_id code message : String)
deriving DecidableEq

inductive ServerMessage
  | registered (session_id : String)
  | errorMsg (message : String)
  | challenge (session_id : String) (round : Nat) (prompt : String)
      (max_tokens : Nat) (temperature : Rat) (deadline_ms : Nat) (seed : Option Nat)
  | heartbeat (ts : Nat)
deriving DecidableEq

/-- Messages handed to `broadcastToTelao` in hub.ts. -/
inductive TelaoEvent
  | token_update (participant_id : String) (round seq : Nat) (content : String)
      (total_tokens : Nat)
  | completion (participant_id : String) (round : Nat) (tokens duration_ms : Rat)
deriving DecidableEq

/-- A WebSocket: an identifier plus whether its send method throws. -/
structure WS where
  id : Nat
  failing : Bool
deriving DecidableEq

/-- `ws.send(payload)`: delivers unless the socket's send throws. -/
def wsSend (ws : WS) (msg : ServerMessage) : Option (Nat × ServerMessage) :=
  if ws.failing then none else some (ws.id, msg)

/-- ParticipantConnection of hub.ts. -/
structure Conn where
  participantId : String
  sessionId : String
  ws : WS
  lastSeq : List (Nat × Nat)
  lastSeen : Nat
deriving DecidableEq

/-- Observable effects of one handler invocation: messages actually delivered
to sockets, and messages handed to `broadcastToTelao` (which only logs). -/
structure Effects where
  sent : List (Nat × ServerMessage)
  telaoLog : List TelaoEvent
deriving DecidableEq

/-- hub.ts `broadcastToTelao(message)`: logs the message at debug level and
writes to no connection at all (the body is only a `logger.debug` call). -/
def broadcastToTelao (message : TelaoEvent) : Effects :=
  Effects.mk [] [message]

/-! ## Token sequencer (hub.ts handleToken / getCurrentRoundTokens) -/

/-- tokenBuffer of hub.ts: participantId -> round -> ordered token contents. -/
def TokenBuffer : Type := List (String × List (Nat × List String))

instance : DecidableEq TokenBuffer :=
  inferInstanceAs (DecidableEq (List (String × List (Nat × List String))))

/-- The buffered stream contents for a (participant, round) pair; `[]` when no
entry exists yet. -/
def tokensOf (buf : TokenBuffer) (pid : String) (r : Nat) : List String :=
  (mget r ((mget pid buf).getD [])).getD []

/-- hub.ts `handleToken`: lazily creates the participant and round entries,
accepts the fragment only when `seq` equals the current buffered length,
and on acceptance appends and hands a `token_update` to `broadcastToTelao`. -/
def handleToken (buf : TokenBuffer) (m : TokenMessage) : TokenBuffer × Effects :=
  let buf1 := ensureKey m.participant_id [] buf
  let rb1 := ensureKey m.round [] ((mget m.participant_id buf1).getD [])
  let tokens := (mget m.round rb1).getD []
  if m.seq ≠ tokens.length then
    (mset m.participant_id rb1 buf1, Effects.mk [] [])
  else
    (mset m.participant_id (mset m.round (tokens ++ [m.content]) rb1) buf1,
     broadcastToTelao (TelaoEvent.token_update m.participant_id m.round m.seq
       m.content (tokens ++ [m.content]).length))

/-- hub.ts `getCurrentRoundTokens`: snapshot of round `roundIndex`, one entry
per participant whose buffer has an entry for that round (JavaScript arrays
are truthy even when empty, so empty entries are included). -/
def getCurrentRoundTokens (buf : TokenBuffer) (roundIndex : Nat) :
    List (String × List String) :=
  buf.filterMap (fun pr => (mget roundIndex pr.2).map (fun ts => (pr.1, ts)))

/-- Submit the contents `cs` in order as token messages with consecutive
sequence numbers starting at `start`, mirroring a client streaming
fragments `seq = start, start+1, ...` for one (participant, round) pair. -/
def submitSeq (buf : TokenBuffer) (pid : String) (r : Nat) (start : Nat) :
    List String → TokenBuffer
  | [] => buf
  | c :: cs =>
      submitSeq (handleToken buf (TokenMessage.mk pid r start c)).1 pid r (start + 1) cs

/-! ## Broadcast (hub.ts broadcast) -/

/-- hub.ts `broadcast`: serializes the message once and writes it to every
connection in the registry; a throwing send is caught per connection (logged)
and iteration continues with the remaining connections. -/
def broadcast (conns : List (String × Conn)) (message : ServerMessage) :
    List (Nat × ServerMessage) :=
  conns.filterMap (fun pr => wsSend pr.2.ws message)

/-! ## Completion handling (hub.ts handleComplete) -/

/-- prisma `round.findFirst({ where: { index } })`: first round in table order
whose index matches, across all sessions. -/
def findRoundByIndex : List Round → Nat → Option Round
  | [], _ => none
  | rd :: rest, idx => if rd.index = idx then some rd else findRoundByIndex rest idx

/-- prisma `metrics.upsert` keyed by the composite unique
(roundId, participantId): replaces the existing row, otherwise appends. -/
def metricsUpsert : List Metrics → Metrics → List Metrics
  | [], x => [x]
  | y :: rest, x =>
      if y.roundId = x.roundId ∧ y.participantId = x.participantId
      then x :: rest
      else y :: metricsUpsert rest x

/-- Lookup of the metrics row for a (round, participant) pair. -/
def findMetrics : List Metrics → String → String → Option Metrics
  | [], _, _ => none
  | y :: rest, rid, pid =>
      if y.roundId = rid ∧ y.participantId = pid then some y
      else findMetrics rest rid pid

/-- hub.ts `handleComplete`: looks the round up by index; when found computes
tpsAvg = tokens / duration_ms * 1000 when duration_ms > 0 else null, upserts
the metrics row for (round, participant) and hands a `completion` event to
`broadcastToTelao`; when the round is missing it only logs. -/
def handleComplete (db : DB) (m : CompleteMessage) : DB × Effects :=
  match findRoundByIndex db.rounds m.round with
  | none => (db, Effects.mk [] [])
  | some rd =>
      let tpsAvg : Option Rat :=
        if 0 < m.duration_ms then some (m.tokens / m.duration_ms * 1000) else none
      let row : Metrics := Metrics.mk rd.id m.participant_id m.tokens
        m.latency_ms_first_token m.duration_ms tpsAvg m.model_info
      ({ db with metrics := metricsUpsert db.metrics row },
       broadcastToTelao (TelaoEvent.completion m.participant_id m.round
         m.tokens m.duration_ms))

/-! ## Registration (hub.ts handleRegister) -/

/-- The latest-created element of a session list (prisma
`findFirst({ orderBy: { createdAt: 'desc' } })` over an already filtered
list); on a createdAt tie the earlier row wins, matching a stable sort. -/
def pickLatest : List Session → Option Session
  | [] => none
  | s :: rest =>
      match pickLatest rest with
      | none => some s
      | some t => if t.createdAt > s.createdAt then some t else some s

/-- prisma `session.findFirst({ where: { status: 'active' },
orderBy: { createdAt: 'desc' } })`. -/
def findActiveSession (sessions : List Session) : Option Session :=
  pickLatest (sessions.filter (fun s => s.status = SessionStatus.active))

/-- prisma `participant.upsert` on id: update lastSeen/runner/model when the
participant exists, otherwise create it in the active session. -/
def participantUpsert (ps : List Participant) (m : RegisterMessage)
    (sid : String) (now : Nat) : List Participant :=
  if ps.any (fun p => p.id = m.participant_id) then
    ps.map (fun p =>
      if p.id = m.participant_id
      then { p with lastSeen := now, runner := m.runner, model := m.model }
      else p)
  else
    ps ++ [Participant.mk m.participant_id sid m.nickname m.runner m.model now now]

/-- hub.ts `handleRegister`: finds the active session, verifies the PIN,
upserts the participant and stores the connection under `connId`
(Map.prototype.set — overwriting any previous binding of this connection id
and leaving every other connection, including other connections of the same
participant, untouched). -/
def handleRegister (db : DB) (conns : List (String × Conn)) (connId : String)
    (ws : WS) (m : RegisterMessage) (now : Nat) :
    DB × List (String × Conn) × Effects :=
  match findActiveSession db.sessions with
  | none =>
      (db, conns,
       Effects.mk (wsSend ws (ServerMessage.errorMsg "No active session")).toList [])
  | some session =>
      if m.pin = session.pinHash then
        ({ db with participants := participantUpsert db.participants m session.id now },
         mset connId (Conn.mk m.participant_id session.id ws [] now) conns,
         Effects.mk (wsSend ws (ServerMessage.registered session.id)).toList [])
      else
        (db, conns,
         Effects.mk (wsSend ws (ServerMessage.errorMsg "Invalid PIN")).toList [])

/-! ## Message dispatch (hub.ts handleMessage) -/

/-- The in-memory state touched by the hub plus the persisted DB. -/
structure ServerState where
  db : DB
  connections : List (String × Conn)
  tokenBuffer : TokenBuffer
deriving DecidableEq

/-- hub.ts `handleMessage`: dispatch on the message type.  Note that the
`token` arm passes only the message to `handleToken` — neither `connId` nor
the connection registry is consulted. -/
def handleMessage (st : ServerState) (connId : String) (ws : WS) (now : Nat)
    (msg : ClientMessage) : ServerState × Effects :=
  match msg with
  | ClientMessage.register rm =>
      let res := handleRegister st.db st.connections connId ws rm now
      (ServerState.mk res.1 res.2.1 st.tokenBuffer, res.2.2)
  | ClientMessage.token tm =>
      let res := handleToken st.tokenBuffer tm
      (ServerState.mk st.db st.connections res.1, res.2)
  | ClientMessage.complete cm =>
      let res := handleComplete st.db cm
      (ServerState.mk res.1 st.connections st.tokenBuffer, res.2)
  | ClientMessage.error _ _ _ _ => (st, Effects.mk [] [])

/-! ## Round lifecycle (core/rounds.ts RoundManager) -/

/-- CreateRoundParams of rounds.ts (svgMode is absent from the HTTP schema but
present in the manager's parameter type). -/
structure CreateRoundParams where
  sessionId : String
  prompt : String
  maxTokens : Option Nat
  temperature : Option Rat
  deadlineMs : Option Nat
  seed : Option Nat
  svgMode : Option Bool
deriving DecidableEq

/-- The typed failures thrown by RoundManager (`throw new Error(...)`). -/
inductive RoundFailure
  | SessionNotFound
  | RoundNotFound
  | AlreadyStarted
  | NotStarted
  | AlreadyEnded
deriving DecidableEq

/-- prisma `session.findUnique({ where: { id } })`. -/
def findSessionById : List Session → String → Option Session
  | [], _ => none
  | s :: rest, sid => if s.id = sid then some s else findSessionById rest sid

/-- prisma `round.findUnique({ where: { id } })`. -/
def findRoundById : List Round → String → Option Round
  | [], _ => none
  | rd :: rest, rid => if rd.id = rid then some rd else findRoundById rest rid

/-- rounds.ts `createRound`: requires only that the session exists (no status
check); the new round's index is the count of the session's rounds plus one;
startedAt and endedAt start unset (state pending). -/
def createRound (db : DB) (params : CreateRoundParams) (newId : String) :
    DB × Except RoundFailure Round :=
  match findSessionById db.sessions params.sessionId with
  | none => (db, Except.error RoundFailure.SessionNotFound)
  | some _ =>
      let nextIndex := (db.rounds.filter (fun rd => rd.sessionId = params.sessionId)).length + 1
      let rd : Round := Round.mk newId params.sessionId nextIndex params.prompt
        (params.maxTokens.getD 400) (params.temperature.getD (4 / 5))
        (params.deadlineMs.getD 90000) params.seed (params.svgMode.getD false)
        none none
      ({ db with rounds := db.rounds ++ [rd] }, Except.ok rd)

/-- rounds.ts `startRound`: throws when the round is unknown or already has a
start timestamp; otherwise records `startedAt = now` and broadcasts the
challenge to every registered connection. -/
def startRound (db : DB) (conns : List (String × Conn)) (roundId : String)
    (now : Nat) : DB × Except RoundFailure Round × List (Nat × ServerMessage) :=
  match findRoundById db.rounds roundId with
  | none => (db, Except.error RoundFailure.RoundNotFound, [])
  | some rd =>
      if rd.startedAt.isSome then
        (db, Except.error RoundFailure.AlreadyStarted, [])
      else
        ({ db with rounds := db.rounds.map (fun x =>
            if x.id = roundId then { x with startedAt := some now } else x) },
         Except.ok { rd with startedAt := some now },
         broadcast conns (ServerMessage.challenge rd.sessionId rd.index rd.prompt
           rd.maxTokens rd.temperature rd.deadlineMs rd.seed))

/-- rounds.ts `stopRound`: throws when the round is unknown, not started, or
already ended; otherwise records `endedAt = now`. -/
def stopRound (db : DB) (roundId : String) (now : Nat) :
    DB × Except RoundFailure Round :=
  match findRoundById db.rounds roundId with
  | none => (db, Except.error RoundFailure.RoundNotFound)
  | some rd =>
      if rd.startedAt.isNone then
        (db, Except.error RoundFailure.NotStarted)
      else if rd.endedAt.isSome then
        (db, Except.error RoundFailure.AlreadyEnded)
      else
        ({ db with rounds := db.rounds.map (fun x =>
            if x.id = roundId then { x with endedAt := some now } else x) },
         Except.ok { rd with endedAt := some now })

/-! ## Votes (routes CastVoteSchema; VoteManager.castVote) -/

/-- CastVoteSchema of the routes file: `z.number().min(1).max(5)` — range
check only, no integrality requirement. -/
def castVoteSchemaOk (score : Rat) : Bool :=
  if 1 ≤ score ∧ score ≤ 5 then true else false

inductive VoteFailure
  | InvalidScore
  | RoundNotFound
deriving DecidableEq

/-- prisma-style upsert for votes keyed by (roundId, voterId, participantId). -/
def voteUpsert : List Vote → Vote → List Vote
  | [], x => [x]
  | y :: rest, x =>
      if y.roundId = x.roundId ∧ y.voterId = x.voterId ∧ y.participantId = x.participantId
      then x :: rest
      else y :: voteUpsert rest x

/-- Modelled from the spec: `VoteManager.castVote` — the file
src/server/src/core/votes.ts is not under src/, only its caller (the POST
/votes route) is.  Per the spec: the score must be an integer in [1,5], else
`InvalidScore`; the round must exist, else `RoundNotFound`; a second vote
from the same (voter, round, participant) overwrites rather than duplicates.
A rational is an integer exactly when its reduced denominator is 1. -/
def castVote (db : DB) (roundId voterId participantId : String) (score : Rat) :
    DB × Except VoteFailure Vote :=
  if score.den = 1 ∧ 1 ≤ score ∧ score ≤ 5 then
    match findRoundById db.rounds roundId with
    | none => (db, Except.error VoteFailure.RoundNotFound)
    | some _ =>
        let v : Vote := Vote.mk roundId voterId participantId score
        ({ db with votes := voteUpsert db.votes v }, Except.ok v)
  else
    (db, Except.error VoteFailure.InvalidScore)

/-- The round record that `createRound` inserts for a given store and
parameters: next sequential 1-based index within the session, defaults
filled in, pending (no timestamps). -/
def mkRoundFor (db : DB) (params : CreateRoundParams) (newId : String) : Round :=
  Round.mk newId params.sessionId
    ((db.rounds.filter (fun rd => rd.sessionId = params.sessionId)).length + 1)
    params.prompt (params.maxTokens.getD 400) (params.temperature.getD (4 / 5))
    (params.deadlineMs.getD 90000) params.seed (params.svgMode.getD false) none none

/-- The metrics row that `handleComplete` writes for a found round. -/
def completionRow (rd : Round) (m : CompleteMessage) : Metrics :=
  Metrics.mk rd.id m.participant_id m.tokens m.latency_ms_first_token m.duration_ms
    (if 0 < m.duration_ms then some (m.tokens / m.duration_ms * 1000) else none)
    m.model_info

/-! ## Concrete fixtures for witnesses and counterexamples -/

def sessionA : Session := Session.mk "s1" "123456" SessionStatus.active 10

def sessionB : Session := Session.mk "s2" "999999" SessionStatus.ended 10

def roundPending : Round :=
  Round.mk "r1" "s1" 1 "prompt" 400 (4 / 5) 90000 none false none none

def roundActive : Round :=
  Round.mk "r2" "s1" 2 "prompt" 400 (4 / 5) 90000 none false (some 20) none

def roundEnded : Round :=
  Round.mk "r3" "s1" 3 "prompt" 400 (4 / 5) 90000 none false (some 20) (some 30)

def dbA : DB := DB.mk [sessionA] [] [roundPending, roundActive, roundEnded] [] []

def dbEnded : DB := DB.mk [sessionB] [] [] [] []

def wsOk1 : WS := WS.mk 1 false

def wsOk2 : WS := WS.mk 2 false

def regMsg : RegisterMessage := RegisterMessage.mk "p" "nick" "123456" "ollama" "llama"

def connsAfterFirst : List (String × Conn) :=
  (handleRegister dbA [] "c1" wsOk1 regMsg 5).2.1

def connsAfterSecond : List (String × Conn) :=
  (handleRegister (handleRegister dbA [] "c1" wsOk1 regMsg 5).1 connsAfterFirst
    "c2" wsOk2 regMsg 6).2.1

def cmsg : CompleteMessage := CompleteMessage.mk "p" 1 3 none 1000 none

def cmsgOverwrite : CompleteMessage := CompleteMessage.mk "p" 1 5 none 0 none

def cexParams : CreateRoundParams :=
  CreateRoundParams.mk "s2" "prompt" none none none none none

def paramsS1 : CreateRoundParams :=
  CreateRoundParams.mk "s1" "newprompt" (some 10) none none none none

def connA : Conn := Conn.mk "pa" "s1" (WS.mk 1 false) [] 0

def connB : Conn := Conn.mk "pb" "s1" (WS.mk 3 true) [] 0

def connC : Conn := Conn.mk "pc" "s1" (WS.mk 2 false) [] 0

/-- The non-integer score 3.5 = 7/2, given in lowest terms so that its
denominator is literally 2. -/
def scoreHalf : Rat := ⟨7, 2, by norm_num, by norm_num⟩

/-! ## Association-list and token-sequencer lemmas -/

@[simp] theorem keysOf_nil {κ α : Type} : keysOf ([] : List (κ × α)) = [] := rfl

@[simp] theorem keysOf_cons {κ α : Type} (p : κ × α) (m : List (κ × α)) :
    keysOf (p :: m) = p.1 :: keysOf m := rfl

theorem mget_mset_self {κ α : Type} [DecidableEq κ] (k : κ) (v : α)
    (m : List (κ × α)) : mget k (mset k v m) = some v := by
  induction m with
  | nil => simp [mget, mset]
  | cons p rest ih =>
      by_cases h : p.1 = k
      · simp [mget, mset, h]
      · simp [mget, mset, h, ih]

theorem mget_mset_ne {κ α : Type} [DecidableEq κ] {k k' : κ} (v : α)
    (m : List (κ × α)) (h : k' ≠ k) : mget k' (mset k v m) = mget k' m := by
  induction m with
  | nil => simp [mget, mset, Ne.symm h]
  | cons p rest ih =>
      by_cases hp : p.1 = k
      · simp [mget, mset, hp, Ne.symm h]
      · by_cases hp' : p.1 = k'
        · simp [mget, mset, hp, hp', h]
        · simp [mget, mset, hp, hp', ih]

theorem mget_ensureKey_self {κ α : Type} [DecidableEq κ] (k : κ) (d : α)
    (m : List (κ × α)) : mget k (ensureKey k d m) = some ((mget k m).getD d) := by
  unfold ensureKey
  cases h : mget k m with
  | none => simp [h, mget_mset_self]
  | some v => simp [h]

theorem mget_ensureKey_ne {κ α : Type} [DecidableEq κ] {k k' : κ} (d : α)
    (m : List (κ × α)) (h : k' ≠ k) : mget k' (ensureKey k d m) = mget k' m := by
  unfold ensureKey
  cases hm : mget k m with
  | none => simp [mget_mset_ne d m h]
  | some v => simp

theorem mem_keysOf_mset {κ α : Type} [DecidableEq κ] (k x : κ) (v : α)
    (m : List (κ × α)) : x ∈ keysOf (mset k v m) ↔ x = k ∨ x ∈ keysOf m := by
  induction m with
  | nil => simp [mset]
  | cons p rest ih =>
      by_cases h : p.1 = k
      · subst h
        rw [mset, if_pos rfl]
        simp only [keysOf_cons, List.mem_cons]
        tauto
      · rw [mset, if_neg h]
        simp only [keysOf_cons, List.mem_cons]
        rw [ih]
        tauto

theorem nodup_keysOf_mset {κ α : Type} [DecidableEq κ] (k : κ) (v : α)
    (m : List (κ × α)) (hm : (keysOf m).Nodup) : (keysOf (mset k v m)).Nodup := by
  induction m with
  | nil => simp [mset]
  | cons p rest ih =>
      rw [keysOf_cons, List.nodup_cons] at hm
      by_cases h : p.1 = k
      · subst h
        rw [mset, if_pos rfl, keysOf_cons, List.nodup_cons]
        exact ⟨hm.1, hm.2⟩
      · rw [mset, if_neg h, keysOf_cons, List.nodup_cons]
        refine ⟨?_, ih hm.2⟩
        intro hmem
        rcases (mem_keysOf_mset k p.1 v rest).mp hmem with h1 | h1
        · exact h h1
        · exact hm.1 h1

theorem nodup_keysOf_ensureKey {κ α : Type} [DecidableEq κ] (k : κ) (d : α)
    (m : List (κ × α)) (hm : (keysOf m).Nodup) : (keysOf (ensureKey k d m)).Nodup := by
  unfold ensureKey
  by_cases h : (mget k m).isSome
  · simpa [h] using hm
  · simpa [h] using nodup_keysOf_mset k d m hm

theorem mget_eq_none_of_not_mem_keysOf {κ α : Type} [DecidableEq κ] (k : κ)
    (m : List (κ × α)) (h : k ∉ keysOf m) : mget k m = none := by
  induction m with
  | nil => rfl
  | cons p rest ih =>
      rw [keysOf_cons, List.mem_cons] at h
      push_neg at h
      rw [mget, if_neg (Ne.symm h.1)]
      exact ih h.2

theorem handleToken_accept (buf : TokenBuffer) (m : TokenMessage)
    (hseq : m.seq = (tokensOf buf m.participant_id m.round).length) :
    handleToken buf m =
      (mset m.participant_id
         (mset m.round (tokensOf buf m.participant_id m.round ++ [m.content])
           (ensureKey m.round [] ((mget m.participant_id buf).getD [])))
         (ensureKey m.participant_id [] buf),
       Effects.mk [] [TelaoEvent.token_update m.participant_id m.round m.seq
         m.content ((tokensOf buf m.participant_id m.round).length + 1)]) := by
  have htok : (mget m.round ((mget m.participant_id buf).getD [])).getD ([] : List String)
      = tokensOf buf m.participant_id m.round := rfl
  simp only [handleToken, mget_ensureKey_self, Option.getD_some, htok, broadcastToTelao]
  rw [if_neg (not_ne_iff.mpr hseq)]
  simp

theorem handleToken_reject (buf : TokenBuffer) (m : TokenMessage)
    (hseq : m.seq ≠ (tokensOf buf m.participant_id m.round).length) :
    handleToken buf m =
      (mset m.participant_id
         (ensureKey m.round [] ((mget m.participant_id buf).getD []))
         (ensureKey m.participant_id [] buf),
       Effects.mk [] []) := by
  have htok : (mget m.round ((mget m.participant_id buf).getD [])).getD ([] : List String)
      = tokensOf buf m.participant_id m.round := rfl
  simp only [handleToken, mget_ensureKey_self, Option.getD_some, htok]
  rw [if_pos hseq]

theorem tokensOf_handleToken (buf : TokenBuffer) (m : TokenMessage)
    (p : String) (r : Nat) :
    tokensOf (handleToken buf m).1 p r =
      if p = m.participant_id ∧ r = m.round ∧
          m.seq = (tokensOf buf m.participant_id m.round).length
      then tokensOf buf p r ++ [m.content]
      else tokensOf buf p r := by
  by_cases hseq : m.seq = (tokensOf buf m.participant_id m.round).length
  · rw [handleToken_accept buf m hseq]
    by_cases hp : p = m.participant_id
    · subst hp
      by_cases hr : r = m.round
      · subst hr
        simp [tokensOf, mget_mset_self, hseq]
      · simp only [tokensOf, mget_mset_self, Option.getD_some]
        rw [mget_mset_ne _ _ hr, mget_ensureKey_ne _ _ hr]
        simp [hr]
    · simp only [tokensOf]
      rw [mget_mset_ne _ _ hp, mget_ensureKey_ne _ _ hp]
      simp [hp]
  · rw [handleToken_reject buf m hseq]
    by_cases hp : p = m.participant_id
    · subst hp
      simp only [tokensOf, mget_mset_self, Option.getD_some]
      by_cases hr : r = m.round
      · subst hr
        rw [mget_ensureKey_self]
        have htok : (mget m.round ((mget m.participant_id buf).getD [])).getD ([] : List String)
            = tokensOf buf m.participant_id m.round := rfl
        simp only [Option.getD_some, htok]
        simp [hseq]
      · rw [mget_ensureKey_ne _ _ hr]
        simp [tokensOf, hr]
    · simp only [tokensOf]
      rw [mget_mset_ne _ _ hp, mget_ensureKey_ne _ _ hp]
      simp [hp]

theorem handleToken_effects (buf : TokenBuffer) (m : TokenMessage) :
    (handleToken buf m).2 =
      if m.seq = (tokensOf buf m.participant_id m.round).length
      then Effects.mk [] [TelaoEvent.token_update m.participant_id m.round m.seq
        m.content (m.seq + 1)]
      else Effects.mk [] [] := by
  by_cases hseq : m.seq = (tokensOf buf m.participant_id m.round).length
  · rw [handleToken_accept buf m hseq]
    simp [hseq]
  · rw [handleToken_reject buf m hseq]
    simp [hseq]

theorem nodup_keysOf_handleToken (buf : TokenBuffer) (m : TokenMessage)
    (h : (keysOf buf).Nodup) : (keysOf (handleToken buf m).1).Nodup := by
  by_cases hseq : m.seq = (tokensOf buf m.participant_id m.round).length
  · rw [handleToken_accept buf m hseq]
    exact nodup_keysOf_mset _ _ _ (nodup_keysOf_ensureKey _ _ _ h)
  · rw [handleToken_reject buf m hseq]
    exact nodup_keysOf_mset _ _ _ (nodup_keysOf_ensureKey _ _ _ h)

theorem getCurrentRoundTokens_cons_none (p : String × List (Nat × List String))
    (rest : TokenBuffer) (r : Nat) (hm : mget r p.2 = none) :
    getCurrentRoundTokens (p :: rest) r = getCurrentRoundTokens rest r := by
  simp [getCurrentRoundTokens, hm]

theorem getCurrentRoundTokens_cons_some (p : String × List (Nat × List String))
    (rest : TokenBuffer) (r : Nat) (ts : List String) (hm : mget r p.2 = some ts) :
    getCurrentRoundTokens (p :: rest) r = (p.1, ts) :: getCurrentRoundTokens rest r := by
  simp [getCurrentRoundTokens, hm]

theorem mget_getCurrentRoundTokens_of_mget_eq_none (buf : TokenBuffer)
    (pid : String) (r : Nat) (h : mget pid buf = none) :
    mget pid (getCurrentRoundTokens buf r) = none := by
  induction buf with
  | nil => rfl
  | cons p rest ih =>
      rw [mget] at h
      by_cases hp : p.1 = pid
      · simp [hp] at h
      · rw [if_neg hp] at h
        cases hm : mget r p.2 with
        | none =>
            rw [getCurrentRoundTokens_cons_none p rest r hm]
            exact ih h
        | some ts =>
            rw [getCurrentRoundTokens_cons_some p rest r ts hm, mget, if_neg hp]
            exact ih h

/-- Under key uniqueness, the snapshot entry of a participant is exactly that
participant's buffer entry for the round (including `some []`). -/
theorem mget_getCurrentRoundTokens (buf : TokenBuffer) (r : Nat) (pid : String)
    (hnd : (keysOf buf).Nodup) :
    mget pid (getCurrentRoundTokens buf r) =
      (mget pid buf).bind (fun rb => mget r rb) := by
  induction buf with
  | nil => rfl
  | cons p rest ih =>
      rw [keysOf_cons, List.nodup_cons] at hnd
      by_cases hp : p.1 = pid
      · subst hp
        cases hm : mget r p.2 with
        | none =>
            rw [getCurrentRoundTokens_cons_none p rest r hm, mget, if_pos rfl]
            simp only [Option.some_bind, hm]
            exact mget_getCurrentRoundTokens_of_mget_eq_none rest p.1 r
              (mget_eq_none_of_not_mem_keysOf p.1 rest hnd.1)
        | some ts =>
            rw [getCurrentRoundTokens_cons_some p rest r ts hm, mget, if_pos rfl,
              mget, if_pos rfl]
            simp [hm]
      · cases hm : mget r p.2 with
        | none =>
            rw [getCurrentRoundTokens_cons_none p rest r hm, mget, if_neg hp]
            exact ih hnd.2
        | some ts =>
            rw [getCurrentRoundTokens_cons_some p rest r ts hm, mget, if_neg hp,
              mget, if_neg hp]
            exact ih hnd.2

theorem tokensOf_submitSeq (pid : String) (r : Nat) (cs : List String) :
    ∀ buf : TokenBuffer, ∀ start : Nat, start = (tokensOf buf pid r).length →
      tokensOf (submitSeq buf pid r start cs) pid r = tokensOf buf pid r ++ cs := by
  induction cs with
  | nil => intro buf start _; simp [submitSeq]
  | cons c cs ih =>
      intro buf start hstart
      subst hstart
      rw [submitSeq]
      have hstep := tokensOf_handleToken buf
        (TokenMessage.mk pid r ((tokensOf buf pid r).length) c) pid r
      rw [if_pos ⟨rfl, rfl, rfl⟩] at hstep
      have hlen : (tokensOf buf pid r).length + 1 =
          (tokensOf (handleToken buf
            (TokenMessage.mk pid r ((tokensOf buf pid r).length) c)).1 pid r).length := by
        rw [hstep]
        simp
      rw [ih _ _ hlen, hstep]
      simp

theorem nodup_keysOf_submitSeq (pid : String) (r : Nat) (cs : List String) :
    ∀ buf : TokenBuffer, ∀ start : Nat, (keysOf buf).Nodup →
      (keysOf (submitSeq buf pid r start cs)).Nodup := by
  induction cs with
  | nil => intro buf start h; simpa [submitSeq] using h
  | cons c cs ih =>
      intro buf start h
      rw [submitSeq]
      exact ih _ _ (nodup_keysOf_handleToken _ _ h)

theorem findMetrics_metricsUpsert (ms : List Metrics) (x : Metrics) :
    findMetrics (metricsUpsert ms x) x.roundId x.participantId = some x := by
  induction ms with
  | nil => simp [metricsUpsert, findMetrics]
  | cons y rest ih =>
      by_cases h : y.roundId = x.roundId ∧ y.participantId = x.participantId
      · rw [metricsUpsert, if_pos h, findMetrics, if_pos ⟨rfl, rfl⟩]
      · rw [metricsUpsert, if_neg h, findMetrics, if_neg ?hne]
        · exact ih
        · case hne =>
            intro hc
            exact h ⟨hc.1, hc.2⟩

/-! ## Helper lemmas about the round store and metrics -/

theorem findRoundById_map_update (rounds : List Round) (rid : String) (rd : Round)
    (f : Round → Round) (hf : ∀ x, (f x).id = x.id)
    (h : findRoundById rounds rid = some rd) :
    findRoundById (rounds.map (fun x => if x.id = rid then f x else x)) rid
      = some (f rd) := by
  induction rounds with
  | nil => simp [findRoundById] at h
  | cons x rest ih =>
      by_cases hx : x.id = rid
      · rw [findRoundById, if_pos hx] at h
        injection h with h
        subst h
        rw [List.map_cons, if_pos hx, findRoundById, if_pos (by rw [hf]; exact hx)]
      · rw [findRoundById, if_neg hx] at h
        rw [List.map_cons, if_neg hx, findRoundById, if_neg hx]
        exact ih h

theorem handleComplete_rounds (db : DB) (m : CompleteMessage) :
    (handleComplete db m).1.rounds = db.rounds := by
  unfold handleComplete
  cases findRoundByIndex db.rounds m.round <;> rfl

theorem handleComplete_found (db : DB) (m : CompleteMessage) (rd : Round)
    (hfind : findRoundByIndex db.rounds m.round = some rd) :
    handleComplete db m
      = ({ db with metrics := metricsUpsert db.metrics (completionRow rd m) },
         broadcastToTelao (TelaoEvent.completion m.participant_id m.round
           m.tokens m.duration_ms)) := by
  simp [handleComplete, hfind, completionRow]

theorem createRound_ok (db : DB) (params : CreateRoundParams) (newId : String)
    (s : Session) (hs : findSessionById db.sessions params.sessionId = some s) :
    createRound db params newId
      = ({ db with rounds := db.rounds ++ [mkRoundFor db params newId] },
         Except.ok (mkRoundFor db params newId)) := by
  simp [createRound, hs, mkRoundFor]

/-! ## Claim theorems -/

/-- C2: start on a round that is not pending (it already has a start
timestamp) fails with AlreadyStarted; stop on a pending round fails with
NotStarted; stop on an ended round fails with AlreadyEnded; every failing
call returns the store unchanged; a successful start records a start
timestamp (in the returned round and in the store) and a successful stop
records an end timestamp. -/
theorem c2_round_lifecycle (db : DB) (conns : List (String × Conn))
    (roundId : String) (rd : Round) (now : Nat)
    (hfind : findRoundById db.rounds roundId = some rd) :
    (∀ t, rd.startedAt = some t →
      startRound db conns roundId now
        = (db, Except.error RoundFailure.AlreadyStarted, []))
    ∧ (rd.startedAt = none →
      stopRound db roundId now = (db, Except.error RoundFailure.NotStarted))
    ∧ (∀ t u, rd.startedAt = some t → rd.endedAt = some u →
      stopRound db roundId now = (db, Except.error RoundFailure.AlreadyEnded))
    ∧ (rd.startedAt = none →
      (startRound db conns roundId now).2.1
          = Except.ok { rd with startedAt := some now }
      ∧ findRoundById (startRound db conns roundId now).1.rounds roundId
          = some { rd with startedAt := some now })
    ∧ (∀ t, rd.startedAt = some t → rd.endedAt = none →
      (stopRound db roundId now).2 = Except.ok { rd with endedAt := some now }
      ∧ findRoundById (stopRound db roundId now).1.rounds roundId
          = some { rd with endedAt := some now }) := by
  refine ⟨?_, ?_, ?_, ?_, ?_⟩
  · intro t ht
    simp [startRound, hfind, ht]
  · intro ht
    simp [stopRound, hfind, ht]
  · intro t u ht hu
    simp [stopRound, hfind, ht, hu]
  · intro ht
    have hupd := findRoundById_map_update db.rounds roundId rd
      (fun x => { x with startedAt := some now }) (fun x => rfl) hfind
    constructor
    · simp [startRound, hfind, ht]
    · simpa [startRound, hfind, ht] using hupd
  · intro t ht hu
    have hupd := findRoundById_map_update db.rounds roundId rd
      (fun x => { x with endedAt := some now }) (fun x => rfl) hfind
    constructor
    · simp [stopRound, hfind, ht, hu]
    · simpa [stopRound, hfind, ht, hu] using hupd

/-- C2 witness: the lifecycle theorem instantiated on a concrete store with a
pending, an active and an ended round. -/
theorem c2_round_lifecycle_witness :
    startRound dbA [] "r2" 99 = (dbA, Except.error RoundFailure.AlreadyStarted, [])
    ∧ stopRound dbA "r1" 99 = (dbA, Except.error RoundFailure.NotStarted)
    ∧ stopRound dbA "r3" 99 = (dbA, Except.error RoundFailure.AlreadyEnded)
    ∧ (startRound dbA [] "r1" 99).2.1
        = Except.ok { roundPending with startedAt := some 99 }
    ∧ (stopRound dbA "r2" 99).2 = Except.ok { roundActive with endedAt := some 99 } :=
  ⟨(c2_round_lifecycle dbA [] "r2" roundActive 99 rfl).1 20 rfl,
   (c2_round_lifecycle dbA [] "r1" roundPending 99 rfl).2.1 rfl,
   (c2_round_lifecycle dbA [] "r3" roundEnded 99 rfl).2.2.1 20 30 rfl rfl,
   ((c2_round_lifecycle dbA [] "r1" roundPending 99 rfl).2.2.2.1 rfl).1,
   ((c2_round_lifecycle dbA [] "r2" roundActive 99 rfl).2.2.2.2 20 rfl rfl).1⟩

/-- C7 (amended): createRound requires only that the target session exists —
it performs no check that the session is active (the HTTP route, not the
manager, restricts the call to the active session).  The new round gets
index = (number of the session's rounds) + 1, i.e. the next sequential
1-based index, monotonically increasing as long as rounds are only added,
and starts pending (no start or end timestamp). -/
theorem c7_create_round (db : DB) (params : CreateRoundParams)
    (newId newId2 : String) (s : Session)
    (hs : findSessionById db.sessions params.sessionId = some s) :
    (createRound db params newId).2 = Except.ok (mkRoundFor db params newId)
    ∧ (createRound db params newId).1.rounds
        = db.rounds ++ [mkRoundFor db params newId]
    ∧ (mkRoundFor db params newId).index
        = (db.rounds.filter (fun rd => rd.sessionId = params.sessionId)).length + 1
    ∧ (mkRoundFor db params newId).startedAt = none
    ∧ (mkRoundFor db params newId).endedAt = none
    ∧ (createRound (createRound db params newId).1 params newId2).2
        = Except.ok (mkRoundFor (createRound db params newId).1 params newId2)
    ∧ (mkRoundFor (createRound db params newId).1 params newId2).index
        = (mkRoundFor db params newId).index + 1
    ∧ (∀ (db2 : DB) (params2 : CreateRoundParams) (nid : String),
        findSessionById db2.sessions params2.sessionId = none →
        createRound db2 params2 nid
          = (db2, Except.error RoundFailure.SessionNotFound)) := by
  have h1 := createRound_ok db params newId s hs
  have hs2 : findSessionById (createRound db params newId).1.sessions params.sessionId
      = some s := by
    rw [h1]
    exact hs
  have h2 := createRound_ok (createRound db params newId).1 params newId2 s hs2
  refine ⟨?_, ?_, rfl, rfl, rfl, ?_, ?_, ?_⟩
  · rw [h1]
  · rw [h1]
  · rw [h2]
  · rw [h1]
    simp [mkRoundFor, List.filter_append]
  · intro db2 params2 nid hnone
    simp [createRound, hnone]

/-- C7 witness: creating a round in the concrete store with three existing
rounds for the session yields index 4, pending; asking for a sessionId that
does not exist in the store fails with SessionNotFound and leaves the store
unchanged. -/
theorem c7_create_round_witness :
    (createRound dbA paramsS1 "r4").2 = Except.ok (mkRoundFor dbA paramsS1 "r4")
    ∧ (mkRoundFor dbA paramsS1 "r4").index = 4
    ∧ (mkRoundFor dbA paramsS1 "r4").startedAt = none
    ∧ createRound dbEnded paramsS1 "r9"
        = (dbEnded, Except.error RoundFailure.SessionNotFound) := by
  have h := c7_create_round dbA paramsS1 "r4" "r5" sessionA rfl
  exact ⟨h.1, by decide, h.2.2.2.1, h.2.2.2.2.2.2.2 dbEnded paramsS1 "r9" rfl⟩

/-- C7 counterexample: the only session of the store is ended, yet
createRound succeeds instead of failing — the manager never checks the
session's status. -/
theorem c7_inactive_session_cex :
    dbEnded.sessions = [sessionB]
    ∧ sessionB.status = SessionStatus.ended
    ∧ (createRound dbEnded cexParams "r9").2
        = Except.ok (mkRoundFor dbEnded cexParams "r9") := by
  refine ⟨rfl, rfl, ?_⟩
  rw [createRound_ok dbEnded cexParams "r9" sessionB rfl]

/-- C8: on a complete message whose round index resolves to a round,
the recorded tpsAvg equals tokens / duration_ms * 1000 when duration_ms > 0
and is null otherwise, and re-submitting complete for the same
(round, participant) overwrites the metrics row (last write wins). -/
theorem c8_complete_metrics (db : DB) (m m2 : CompleteMessage) (rd : Round)
    (hfind : findRoundByIndex db.rounds m.round = some rd)
    (hsame : m2.round = m.round) (hpid : m2.participant_id = m.participant_id) :
    findMetrics (handleComplete db m).1.metrics rd.id m.participant_id
      = some (completionRow rd m)
    ∧ (completionRow rd m).tpsAvg
      = (if 0 < m.duration_ms then some (m.tokens / m.duration_ms * 1000) else none)
    ∧ findMetrics (handleComplete (handleComplete db m).1 m2).1.metrics rd.id
        m.participant_id
      = some (completionRow rd m2) := by
  have hfind2 : findRoundByIndex (handleComplete db m).1.rounds m2.round = some rd := by
    rw [handleComplete_rounds, hsame]
    exact hfind
  refine ⟨?_, rfl, ?_⟩
  · rw [handleComplete_found db m rd hfind]
    exact findMetrics_metricsUpsert db.metrics (completionRow rd m)
  · rw [handleComplete_found (handleComplete db m).1 m2 rd hfind2, ← hpid]
    exact findMetrics_metricsUpsert (handleComplete db m).1.metrics (completionRow rd m2)

/-- C8 witness: complete with tokens=3, duration_ms=1000 records tpsAvg=3;
re-submitting with tokens=5, duration_ms=0 overwrites the row and records
tpsAvg=null. -/
theorem c8_complete_metrics_witness :
    findMetrics (handleComplete dbA cmsg).1.metrics "r1" "p"
      = some (Metrics.mk "r1" "p" 3 none 1000 (some 3) none)
    ∧ findMetrics (handleComplete (handleComplete dbA cmsg).1 cmsgOverwrite).1.metrics
        "r1" "p"
      = some (Metrics.mk "r1" "p" 5 none 0 none none) := by
  have h := c8_complete_metrics dbA cmsg cmsgOverwrite roundPending rfl rfl rfl
  exact ⟨h.1.trans (by norm_num [completionRow, cmsg, roundPending]),
         h.2.2.trans (by norm_num [completionRow, cmsgOverwrite, roundPending])⟩

/-- C1 (amended): a token message is accepted — its content appended and a
token_update emitted — exactly when its seq equals the current length of the
(participant, round) stream, starting at 0; a rejected message appends
nothing and leaves the contents of every (participant, round) stream
unchanged (although first contact with a fresh pair creates an empty stream
entry, observable in the snapshot — see the counterexample); and after
submitting seq 0..n-1 in order, the snapshot for that participant and round
is exactly those n fragments in order. -/
theorem c1_append_contract (buf : TokenBuffer) (m : TokenMessage)
    (pid : String) (r : Nat) (cs : List String)
    (hnd : (keysOf buf).Nodup) (hempty : tokensOf buf pid r = [])
    (hcs : cs ≠ []) :
    ((handleToken buf m).2.telaoLog ≠ [] ↔
        m.seq = (tokensOf buf m.participant_id m.round).length)
    ∧ (m.seq = (tokensOf buf m.participant_id m.round).length →
        tokensOf (handleToken buf m).1 m.participant_id m.round
          = tokensOf buf m.participant_id m.round ++ [m.content])
    ∧ (m.seq ≠ (tokensOf buf m.participant_id m.round).length →
        ∀ p q, tokensOf (handleToken buf m).1 p q = tokensOf buf p q)
    ∧ mget pid (getCurrentRoundTokens (submitSeq buf pid r 0 cs) r) = some cs := by
  refine ⟨?_, ?_, ?_, ?_⟩
  · rw [handleToken_effects]
    by_cases hseq : m.seq = (tokensOf buf m.participant_id m.round).length
    · simp [hseq]
    · simp [hseq]
  · intro hseq
    have h := tokensOf_handleToken buf m m.participant_id m.round
    rw [if_pos ⟨rfl, rfl, hseq⟩] at h
    exact h
  · intro hseq p q
    have h := tokensOf_handleToken buf m p q
    rw [if_neg (fun hc => hseq hc.2.2)] at h
    exact h
  · have hstart : (0 : Nat) = (tokensOf buf pid r).length := by
      rw [hempty]
      rfl
    have hfin : tokensOf (submitSeq buf pid r 0 cs) pid r = cs := by
      rw [tokensOf_submitSeq pid r cs buf 0 hstart, hempty]
      rfl
    rw [mget_getCurrentRoundTokens _ _ _ (nodup_keysOf_submitSeq pid r cs buf 0 hnd)]
    cases hpb : mget pid (submitSeq buf pid r 0 cs) with
    | none =>
        exfalso
        apply hcs
        rw [← hfin]
        simp [tokensOf, hpb, mget]
    | some rb =>
        cases hrb : mget r rb with
        | none =>
            exfalso
            apply hcs
            rw [← hfin]
            simp [tokensOf, hpb, hrb]
        | some ts =>
            have hts : ts = cs := by
              rw [← hfin]
              simp [tokensOf, hpb, hrb]
            rw [Option.some_bind, hrb, hts]

/-- C1 witness: streaming "a","b","c" with seq 0,1,2 into an empty buffer
makes the snapshot for that participant and round exactly those fragments. -/
theorem c1_append_contract_witness :
    tokensOf ([] : TokenBuffer) "p" 1 = []
    ∧ mget "p" (getCurrentRoundTokens (submitSeq [] "p" 1 0 ["a", "b", "c"]) 1)
        = some ["a", "b", "c"] :=
  ⟨rfl, (c1_append_contract [] (TokenMessage.mk "p" 1 0 "x") "p" 1 ["a", "b", "c"]
      (by decide) rfl (by decide)).2.2.2⟩

/-- C1 counterexample: a rejected token (seq 5 against an empty stream) does
mutate the buffer — before, the snapshot of round 7 is empty; afterwards the
participant appears in it with an empty stream, because handleToken creates
the participant and round entries before validating seq.  So a rejected seq
does not leave the buffer unchanged as claimed. -/
theorem c1_reject_mutates_cex :
    (handleToken [] (TokenMessage.mk "p" 7 5 "x")).2.telaoLog = []
    ∧ getCurrentRoundTokens ([] : TokenBuffer) 7 = []
    ∧ getCurrentRoundTokens (handleToken [] (TokenMessage.mk "p" 7 5 "x")).1 7
        = [("p", [])] :=
  ⟨rfl, rfl, rfl⟩

/-- C3 (amended): the hub performs no binding check on token messages — the
resulting token buffer is a function of the message and the previous buffer
only (handleToken), for every connection registry, sender connection id and
socket, and the registry itself is untouched.  In particular a token arriving
on an unbound connection, or with a participantId different from any binding,
is processed exactly as if it were bound (see the counterexample). -/
theorem c3_token_binding_ignored (db : DB) (conns : List (String × Conn))
    (buf : TokenBuffer) (connId : String) (ws : WS) (now : Nat)
    (tm : TokenMessage) :
    (handleMessage (ServerState.mk db conns buf) connId ws now
        (ClientMessage.token tm)).1.tokenBuffer = (handleToken buf tm).1
    ∧ (handleMessage (ServerState.mk db conns buf) connId ws now
        (ClientMessage.token tm)).1.connections = conns
    ∧ (handleMessage (ServerState.mk db conns buf) connId ws now
        (ClientMessage.token tm)).2 = (handleToken buf tm).2 :=
  ⟨rfl, rfl, rfl⟩

/-- C3 counterexample: the registry is empty, so the sending connection is
certainly unbound, yet the token message is accepted and mutates the buffer
(the claim says it must be rejected without mutating any token buffer). -/
theorem c3_unbound_token_cex :
    tokensOf ([] : TokenBuffer) "p" 1 = []
    ∧ tokensOf (handleMessage (ServerState.mk dbA [] []) "c9" wsOk1 0
        (ClientMessage.token (TokenMessage.mk "p" 1 0 "a"))).1.tokenBuffer "p" 1
      = ["a"]
    ∧ (handleMessage (ServerState.mk dbA [] []) "c9" wsOk1 0
        (ClientMessage.token (TokenMessage.mk "p" 1 0 "a"))).2.telaoLog
      = [TelaoEvent.token_update "p" 1 0 "a" 1] :=
  ⟨rfl, rfl, rfl⟩

/-- C4: at the failing input — an accepted token while a connection is
registered — the token_update event is handed to broadcastToTelao, which
only logs it: the set of messages delivered to sockets is empty, so the
event is not broadcast to any connection, contradicting the claim (and the
code comment saying the broadcast mechanism is used). -/
theorem c4_token_update_not_delivered :
    (handleMessage
        (ServerState.mk dbA [("c1", Conn.mk "p" "s1" wsOk1 [] 0)] [])
        "c1" wsOk1 0 (ClientMessage.token (TokenMessage.mk "p" 1 0 "a"))).2
      = Effects.mk [] [TelaoEvent.token_update "p" 1 0 "a" 1] :=
  rfl

/-- C5 (amended): a successful register stores the connection with
Map.prototype.set semantics: the binding of connId is created or silently
overwritten — registering an already-bound connection succeeds with a
`registered` reply instead of failing with DuplicateBinding — and every
other connection is left untouched; in particular a prior connection bound
to the same participant is NOT removed, so a participant can be bound to
several live connections (see the counterexample). -/
theorem c5_register_binding (db : DB) (conns : List (String × Conn))
    (connId : String) (ws : WS) (m : RegisterMessage) (now : Nat) (s : Session)
    (hs : findActiveSession db.sessions = some s) (hpin : m.pin = s.pinHash) :
    (handleRegister db conns connId ws m now).2.1
      = mset connId (Conn.mk m.participant_id s.id ws [] now) conns
    ∧ mget connId (handleRegister db conns connId ws m now).2.1
      = some (Conn.mk m.participant_id s.id ws [] now)
    ∧ (∀ c, c ≠ connId →
        mget c (handleRegister db conns connId ws m now).2.1 = mget c conns)
    ∧ (handleRegister db conns connId ws m now).2.2.sent
      = (wsSend ws (ServerMessage.registered s.id)).toList := by
  have h1 : handleRegister db conns connId ws m now
      = ({ db with participants := participantUpsert db.participants m s.id now },
         mset connId (Conn.mk m.participant_id s.id ws [] now) conns,
         Effects.mk (wsSend ws (ServerMessage.registered s.id)).toList []) := by
    simp [handleRegister, hs, hpin]
  refine ⟨?_, ?_, ?_, ?_⟩
  · rw [h1]
  · rw [h1]
    exact mget_mset_self _ _ _
  · intro c hc
    rw [h1]
    exact mget_mset_ne _ _ hc
  · rw [h1]

/-- C5 witness: a register on a fresh connection against the concrete active
session binds it. -/
theorem c5_register_binding_witness :
    (handleRegister dbA [] "c1" wsOk1 regMsg 5).2.1
      = [("c1", Conn.mk "p" "s1" wsOk1 [] 5)] := by
  have h := (c5_register_binding dbA [] "c1" wsOk1 regMsg 5 sessionA rfl rfl).1
  rw [h]
  rfl

/-- C5 counterexample: after registering participant "p" on connection "c1"
and then on connection "c2", both connections remain bound to "p" — the
prior connection is not removed, refuting "each participant is bound to at
most one live connection"; and re-registering the already-bound "c1"
succeeds with a `registered` reply instead of failing with DuplicateBinding. -/
theorem c5_duplicate_binding_cex :
    (mget "c1" connsAfterSecond).map Conn.participantId = some "p"
    ∧ (mget "c2" connsAfterSecond).map Conn.participantId = some "p"
    ∧ (handleRegister (handleRegister dbA [] "c1" wsOk1 regMsg 5).1 connsAfterFirst
        "c1" wsOk1 regMsg 7).2.2.sent = [(1, ServerMessage.registered "s1")] :=
  ⟨rfl, rfl, rfl⟩

/-- C6 (spec-modelled castVote): every score that is not an integer in [1,5]
is rejected with InvalidScore and the store is unchanged; every integer score
in [1,5] is accepted (when the round exists). -/
theorem c6_cast_vote_scores (db : DB) (roundId voterId participantId : String)
    (score : Rat) (rd : Round)
    (hround : findRoundById db.rounds roundId = some rd) :
    (¬ (score.den = 1 ∧ 1 ≤ score ∧ score ≤ 5) →
      castVote db roundId voterId participantId score
        = (db, Except.error VoteFailure.InvalidScore))
    ∧ ((score.den = 1 ∧ 1 ≤ score ∧ score ≤ 5) →
      (castVote db roundId voterId participantId score).2
        = Except.ok (Vote.mk roundId voterId participantId score)) := by
  constructor
  · intro h
    simp [castVote, h]
  · intro h
    simp [castVote, h, hround]

/-- C6 witness: 3.5 (= 7/2) and 7 are rejected with InvalidScore; the
integer 4 is accepted. -/
theorem c6_cast_vote_scores_witness :
    castVote dbA "r1" "voter" "p" scoreHalf
      = (dbA, Except.error VoteFailure.InvalidScore)
    ∧ castVote dbA "r1" "voter" "p" 7
      = (dbA, Except.error VoteFailure.InvalidScore)
    ∧ (castVote dbA "r1" "voter" "p" 4).2
      = Except.ok (Vote.mk "r1" "voter" "p" 4) :=
  ⟨(c6_cast_vote_scores dbA "r1" "voter" "p" scoreHalf roundPending rfl).1
      (by intro hc; exact absurd hc.1 (by decide)),
   (c6_cast_vote_scores dbA "r1" "voter" "p" 7 roundPending rfl).1
      (by intro hc; exact absurd hc.2.2 (by decide)),
   (c6_cast_vote_scores dbA "r1" "voter" "p" 4 roundPending rfl).2
      (by refine ⟨by decide, by decide, by decide⟩)⟩

/-- C9: broadcast delivers the message to exactly the connections whose
socket send does not throw, in registry order — a throwing send is isolated
and the rest still receive the event; concretely, with three connections of
which one throws, the other two are delivered. -/
theorem c9_broadcast_isolation (conns : List (String × Conn))
    (msg : ServerMessage) :
    broadcast conns msg
      = (conns.filter (fun pr => !pr.2.ws.failing)).map (fun pr => (pr.2.ws.id, msg))
    ∧ broadcast [("a", connA), ("b", connB), ("c", connC)] msg
      = [(1, msg), (2, msg)] := by
  constructor
  · induction conns with
    | nil => rfl
    | cons p rest ih =>
        by_cases h : p.2.ws.failing
        · simpa [broadcast, wsSend, h, List.filterMap_cons, List.filter_cons] using ih
        · simpa [broadcast, wsSend, h, List.filterMap_cons, List.filter_cons] using ih
  · rfl

/-- C10: token handling never consults round state — for every persisted
store (including one containing no round at all) a token whose seq equals
the current buffer length for (participant, r) is accepted and appended,
the buffer entry being created lazily, and the store is left untouched. -/
theorem c10_round_agnostic_tokens (db : DB) (conns : List (String × Conn))
    (buf : TokenBuffer) (connId : String) (ws : WS) (now : Nat)
    (pid content : String) (r seq : Nat)
    (hseq : seq = (tokensOf buf pid r).length) :
    tokensOf (handleMessage (ServerState.mk db conns buf) connId ws now
        (ClientMessage.token (TokenMessage.mk pid r seq content))).1.tokenBuffer pid r
      = tokensOf buf pid r ++ [content]
    ∧ (handleMessage (ServerState.mk db conns buf) connId ws now
        (ClientMessage.token (TokenMessage.mk pid r seq content))).1.db = db := by
  constructor
  · have h := tokensOf_handleToken buf (TokenMessage.mk pid r seq content) pid r
    rw [if_pos ⟨rfl, rfl, hseq⟩] at h
    exact h
  · rfl

/-- C10 witness: in a store with no sessions and no rounds whatsoever, a
token for round 42 is accepted and its buffer springs into existence. -/
theorem c10_round_agnostic_tokens_witness :
    (0 = (tokensOf ([] : TokenBuffer) "p" 42).length)
    ∧ tokensOf (handleMessage (ServerState.mk (DB.mk [] [] [] [] []) [] []) "c1" wsOk1 0
          (ClientMessage.token (TokenMessage.mk "p" 42 0 "tok"))).1.tokenBuffer "p" 42
      = ["tok"] :=
  ⟨rfl,
   (c10_round_agnostic_tokens (DB.mk [] [] [] [] []) [] [] "c1" wsOk1 0
      "p" "tok" 42 0 rfl).1⟩

end Gambiarra
